import Mathlib

/-!
Verification of the location-sensitive attention module
(`src/models/attention.py` of Tacotron2-rehearsal).

Tensors are shallowly embedded as functions out of `Fin`-indexed axes into `ℝ`
(idealising the floating-point arithmetic of the execution engine as real
arithmetic).  The two module-level functions `_location_sensitive_score` and
`_smoothing_normalization` and the `LocationSensitiveAttention.__call__`
pipeline are translated op by op.  Pieces that the source inherits from the
external sequence-to-sequence library (the default softmax probability
function, the masking applied when `memory_sequence_length` is supplied, and
the variable-store semantics of `tf.get_variable`) are modelled from the spec
and marked as such in their doc comments.
-/

namespace Tacotron2

set_option maxHeartbeats 1000000

/-- TensorFlow element dtypes relevant to this module. -/
inductive DType where
  | float16
  | float32
  | float64
deriving DecidableEq

/-- The logistic sigmoid: the real-number meaning of `tf.nn.sigmoid`. -/
noncomputable def sigmoid (x : ℝ) : ℝ := 1 / (1 + Real.exp (-x))

/-- Elementwise addition of two rank-3 tensors of equal shape (`+` in TF). -/
noncomputable def tensorAdd3 {b t u : ℕ} (A B : Fin b → Fin t → Fin u → ℝ) :
    Fin b → Fin t → Fin u → ℝ :=
  fun i j k => A i j k + B i j k

/-- TF broadcasting of a `[batch, 1, num_units]` tensor along the middle
(source time) axis, as happens in `W_keys + W_query`. -/
def broadcastTime {b t u : ℕ} (A : Fin b → Fin 1 → Fin u → ℝ) :
    Fin b → Fin t → Fin u → ℝ :=
  fun i _ k => A i 0 k

/-- Elementwise map over a rank-3 tensor (`tf.tanh` and friends). -/
def tensorMap3 {b t u : ℕ} (f : ℝ → ℝ) (A : Fin b → Fin t → Fin u → ℝ) :
    Fin b → Fin t → Fin u → ℝ :=
  fun i j k => f (A i j k)

/-- Broadcast multiplication of a length-`u` vector against the trailing axis
of a rank-3 tensor (`v_a * T` in TF). -/
noncomputable def vecMul3 {b t u : ℕ} (v : Fin u → ℝ) (A : Fin b → Fin t → Fin u → ℝ) :
    Fin b → Fin t → Fin u → ℝ :=
  fun i j k => v k * A i j k

/-- `tf.reduce_sum(·, axis=2)` on a rank-3 tensor. -/
noncomputable def reduceSumAxis2 {b t u : ℕ} (A : Fin b → Fin t → Fin u → ℝ) :
    Fin b → Fin t → ℝ :=
  fun i j => ∑ k, A i j k

/-- `_location_sensitive_score` (src/models/attention.py lines 15-42):
`tf.reduce_sum(v_a * tf.tanh(W_keys + W_query + W_fil), axis=2)`, where
`W_query` has shape `[batch, 1, num_units]` and broadcasts along the source
time axis while `W_fil` and `W_keys` have shape
`[batch, max_time, num_units]`.  The scoring vector `v_a` is the variable read
from `tf.get_variable` (its store semantics are modelled separately below). -/
noncomputable def location_sensitive_score {b t u : ℕ} (v_a : Fin u → ℝ)
    (W_query : Fin b → Fin 1 → Fin u → ℝ)
    (W_fil W_keys : Fin b → Fin t → Fin u → ℝ) : Fin b → Fin t → ℝ :=
  reduceSumAxis2 (vecMul3 v_a (tensorMap3 Real.tanh
    (tensorAdd3 (tensorAdd3 W_keys (broadcastTime W_query)) W_fil)))

/-- `_smoothing_normalization` (src/models/attention.py lines 44-64):
`tf.nn.sigmoid(e) / tf.reduce_sum(tf.nn.sigmoid(e), axis=-1, keepdims=True)`
on an energy matrix `[batch, max_time]`. -/
noncomputable def smoothing_normalization {b t : ℕ} (e : Fin b → Fin t → ℝ) :
    Fin b → Fin t → ℝ :=
  fun i j => sigmoid (e i j) / ∑ k, sigmoid (e i k)

/-- Modelled from the spec: the exclusive (default) normalization that the
external `BahdanauAttention` base class uses when no probability function is
supplied — "standard normalized-exponential over the source_length axis". -/
noncomputable def softmax {b t : ℕ} (e : Fin b → Fin t → ℝ) : Fin b → Fin t → ℝ :=
  fun i j => Real.exp (e i j) / ∑ k, Real.exp (e i k)

/-- The source positions of one batch row that lie inside its declared valid
memory length `L`. -/
def validPositions {t : ℕ} (L : ℕ) : Finset (Fin t) :=
  Finset.univ.filter (fun j => (j : ℕ) < L)

/-- Modelled from the spec: masking performed by the external base class when
`memory_sequence_length` is supplied.  Scores of positions at or beyond the
row's valid length are replaced by the mask value (-inf), so the softmax
assigns those positions exactly 0 and normalizes over the valid positions. -/
noncomputable def masked_softmax {b t : ℕ} (L : Fin b → ℕ) (e : Fin b → Fin t → ℝ) :
    Fin b → Fin t → ℝ :=
  fun i j =>
    if (j : ℕ) < L i then Real.exp (e i j) / ∑ k ∈ validPositions (L i), Real.exp (e i k)
    else 0

/-- Modelled from the spec: the smoothing normalization after the same
base-class masking.  The sigmoid of the mask value (-inf) is exactly 0, so
masked positions get 0 and the row sum ranges over the valid positions. -/
noncomputable def masked_smoothing {b t : ℕ} (L : Fin b → ℕ) (e : Fin b → Fin t → ℝ) :
    Fin b → Fin t → ℝ :=
  fun i j =>
    if (j : ℕ) < L i then sigmoid (e i j) / ∑ k ∈ validPositions (L i), sigmoid (e i k)
    else 0

/-- Reading a 1-D signal through zero padding: `x[i, z]` for `0 ≤ z < t`,
and 0 outside (the border behavior of same-padding convolution). -/
noncomputable def zeroPadGet {b t : ℕ} (x : Fin b → Fin t → ℝ) (i : Fin b) (z : ℤ) : ℝ :=
  if h : 0 ≤ z ∧ z < (t : ℤ) then x i ⟨z.toNat, by omega⟩ else 0

/-- `tf.layers.Conv1D(filters=F, kernel_size=K, padding='same', use_bias=False)`
applied to the `[batch, max_time, 1]` expansion of the previous alignments
(the `location_convolution` created in `__init__`).  With stride 1, TF same
padding places `(K-1)/2` zeros on the left of the signal. -/
noncomputable def conv1d_same {b t F K : ℕ} (kernel : Fin K → Fin F → ℝ)
    (x : Fin b → Fin t → ℝ) : Fin b → Fin t → Fin F → ℝ :=
  fun i j c => ∑ m : Fin K, kernel m c * zeroPadGet x i ((j : ℤ) + (m : ℤ) - ((K - 1) / 2 : ℕ))

/-- A bias-free dense layer `x ↦ x Wᵀ` (`tf.layers.Dense(units, use_bias=False)`). -/
noncomputable def dense {n p : ℕ} (W : Fin n → Fin p → ℝ) (x : Fin n → ℝ) : Fin p → ℝ :=
  fun k => ∑ d, x d * W d k

/-- The `LocationSensitiveAttention` mechanism after construction.
`keys` is the key projection of the memory computed once per sequence by the
base class; `query_weights` is the base-class query projection
(`query_depth → num_units`); `conv_kernel` and `location_weights` are the
`location_convolution` and `location_layer` created in `__init__`; `v_a` is
the initialized value of the scoring vector used by the score function;
`smoothing` and `memory_sequence_length` are the construction-time
configuration. -/
structure LocationSensitiveAttention (b t qd u F K : ℕ) where
  keys : Fin b → Fin t → Fin u → ℝ
  query_weights : Fin qd → Fin u → ℝ
  conv_kernel : Fin K → Fin F → ℝ
  location_weights : Fin F → Fin u → ℝ
  v_a : Fin u → ℝ
  smoothing : Bool
  memory_sequence_length : Option (Fin b → ℕ)

/-- The probability function selected in `__init__`: `_smoothing_normalization`
when `smoothing=True`, the base-class softmax otherwise, each wrapped with the
base-class masking when `memory_sequence_length` was supplied (masking and
softmax modelled from the spec, see above).  The previous-alignments argument
is accepted and ignored, as in the source. -/
noncomputable def LocationSensitiveAttention.probabilityFn {b t qd u F K : ℕ}
    (m : LocationSensitiveAttention b t qd u F K)
    (e : Fin b → Fin t → ℝ) (_previous : Fin b → Fin t → ℝ) : Fin b → Fin t → ℝ :=
  match m.memory_sequence_length with
  | none => if m.smoothing then smoothing_normalization e else softmax e
  | some L => if m.smoothing then masked_smoothing L e else masked_softmax L e

/-- The body of `__call__` up to the energy: process the query through the
query projection and expand a singleton axis, feed the previous alignments
through the location convolution and location projection, and score.
`v` is the scoring vector read from the variable store by
`_location_sensitive_score`. -/
noncomputable def LocationSensitiveAttention.energy {b t qd u F K : ℕ}
    (m : LocationSensitiveAttention b t qd u F K) (v : Fin u → ℝ)
    (query : Fin b → Fin qd → ℝ) (state : Fin b → Fin t → ℝ) : Fin b → Fin t → ℝ :=
  let processed_query : Fin b → Fin 1 → Fin u → ℝ :=
    fun i _ k => dense m.query_weights (query i) k
  let f : Fin b → Fin t → Fin F → ℝ := conv1d_same m.conv_kernel state
  let processed_location_features : Fin b → Fin t → Fin u → ℝ :=
    fun i j k => dense m.location_weights (f i j) k
  location_sensitive_score v processed_query processed_location_features m.keys

/-- `LocationSensitiveAttention.__call__` (src/models/attention.py lines
132-168): compute the energy from the query and the previous alignments
(`state`), normalize it with the selected probability function, and return
the pair `(alignments, next_state)` where `next_state := alignments`. -/
noncomputable def LocationSensitiveAttention.call {b t qd u F K : ℕ}
    (m : LocationSensitiveAttention b t qd u F K)
    (query : Fin b → Fin qd → ℝ) (state : Fin b → Fin t → ℝ) :
    (Fin b → Fin t → ℝ) × (Fin b → Fin t → ℝ) :=
  let alignments := m.probabilityFn (m.energy m.v_a query state) state
  let next_state := alignments
  (alignments, next_state)

/-- Modelled from the spec: `tf.get_variable` against the mechanism's variable
scope, whose semantics live in the external library.  The store holds the
scoring vector once created; a lookup returns the stored vector when present
and otherwise creates it from the initializer and stores it ("created exactly
once, lazily, on first use within a given parameter-scope"). -/
def getVariable {α : Type} (store : Option α) (init : α) : α × Option α :=
  match store with
  | some v => (v, some v)
  | none => (init, some init)

/-- `__call__` with the variable store of the scoring vector threaded
explicitly: the score function obtains `v_a` through `getVariable`
(creating it from its initialized value `m.v_a` on first use), and the call
returns the updated store alongside the `(alignments, next_state)` pair. -/
noncomputable def LocationSensitiveAttention.callWithStore {b t qd u F K : ℕ}
    (m : LocationSensitiveAttention b t qd u F K) (store : Option (Fin u → ℝ))
    (query : Fin b → Fin qd → ℝ) (state : Fin b → Fin t → ℝ) :
    ((Fin b → Fin t → ℝ) × (Fin b → Fin t → ℝ)) × Option (Fin u → ℝ) :=
  let r := getVariable store m.v_a
  let alignments := m.probabilityFn (m.energy r.1 query state) state
  ((alignments, alignments), r.2)

/-- A rank-3 tensor together with its TF dtype, for tracking the dtype flow
through the score function. -/
structure Tensor3D (b t u : ℕ) where
  data : Fin b → Fin t → Fin u → ℝ
  dtype : DType

/-- TF elementwise addition of equal-shape tensors: succeeds only when the
dtypes agree, otherwise the engine raises a type error. -/
noncomputable def taddTyped {b t u : ℕ} (A B : Tensor3D b t u) :
    Except String (Tensor3D b t u) :=
  if A.dtype = B.dtype then Except.ok ⟨tensorAdd3 A.data B.data, A.dtype⟩
  else Except.error "dtype mismatch"

/-- TF addition of a `[batch, max_time, u]` tensor with a broadcast
`[batch, 1, u]` tensor: dtypes must agree. -/
noncomputable def taddBroadcast {b t u : ℕ} (A : Tensor3D b t u) (B : Tensor3D b 1 u) :
    Except String (Tensor3D b t u) :=
  if A.dtype = B.dtype then Except.ok ⟨tensorAdd3 A.data (broadcastTime B.data), A.dtype⟩
  else Except.error "dtype mismatch"

/-- TF broadcast multiplication of a vector variable of dtype `vdtype`
against the trailing axis of a tensor: dtypes must agree. -/
noncomputable def vecMulTyped {b t u : ℕ} (v : Fin u → ℝ) (vdtype : DType)
    (A : Tensor3D b t u) : Except String (Tensor3D b t u) :=
  if vdtype = A.dtype then Except.ok ⟨vecMul3 v A.data, A.dtype⟩
  else Except.error "dtype mismatch"

/-- `_location_sensitive_score` with the TF dtype flow made explicit: the
local `dtype` is read from the query and never used afterwards (as in the
source), `v_a` is created with dtype float32 unconditionally, the two
elementwise additions require matching operand dtypes, `tf.tanh` preserves
the dtype, and the final multiplication checks `v_a`'s float32 against the
dtype of the tanh result. -/
noncomputable def location_sensitive_score_typed {b t u : ℕ} (v_a_data : Fin u → ℝ)
    (W_query : Tensor3D b 1 u) (W_fil W_keys : Tensor3D b t u) :
    Except String (Fin b → Fin t → ℝ) := do
  let _dtype := W_query.dtype
  let v_a : Fin u → ℝ := v_a_data
  let v_a_dtype : DType := DType.float32
  let s1 ← taddBroadcast W_keys W_query
  let s2 ← taddTyped s1 W_fil
  let th : Tensor3D b t u := ⟨tensorMap3 Real.tanh s2.data, s2.dtype⟩
  let r ← vecMulTyped v_a v_a_dtype th
  return reduceSumAxis2 r.data

/-! ### Helper lemmas -/

lemma sigmoid_pos (x : ℝ) : 0 < sigmoid x := by
  unfold sigmoid
  positivity

lemma sigmoid_lt_one (x : ℝ) : sigmoid x < 1 := by
  unfold sigmoid
  rw [div_lt_one (by positivity)]
  have := Real.exp_pos (-x)
  linarith

lemma call_fst {b t qd u F K : ℕ} (m : LocationSensitiveAttention b t qd u F K)
    (query : Fin b → Fin qd → ℝ) (state : Fin b → Fin t → ℝ) :
    (m.call query state).1 = m.probabilityFn (m.energy m.v_a query state) state := rfl

lemma softmax_nonneg {b t : ℕ} (e : Fin b → Fin t → ℝ) (i : Fin b) (j : Fin t) :
    0 ≤ softmax e i j := by
  unfold softmax
  positivity

lemma softmax_row_sum {b t : ℕ} (e : Fin b → Fin t → ℝ) (ht : 0 < t) (i : Fin b) :
    ∑ j, softmax e i j = 1 := by
  unfold softmax
  rw [← Finset.sum_div]
  apply div_self
  have : Nonempty (Fin t) := ⟨⟨0, ht⟩⟩
  exact (Finset.sum_pos (fun k _ => Real.exp_pos _) Finset.univ_nonempty).ne'

lemma masked_softmax_nonneg {b t : ℕ} (L : Fin b → ℕ) (e : Fin b → Fin t → ℝ)
    (i : Fin b) (j : Fin t) : 0 ≤ masked_softmax L e i j := by
  unfold masked_softmax
  split
  · positivity
  · exact le_refl 0

lemma masked_softmax_row_sum {b t : ℕ} (L : Fin b → ℕ) (e : Fin b → Fin t → ℝ)
    (ht : 0 < t) (i : Fin b) (hLi : 0 < L i) :
    ∑ j, masked_softmax L e i j = 1 := by
  unfold masked_softmax
  rw [← Finset.sum_filter]
  show ∑ j ∈ validPositions (L i), _ = 1
  rw [← Finset.sum_div]
  apply div_self
  have hne : (validPositions (L i) : Finset (Fin t)).Nonempty :=
    ⟨⟨0, ht⟩, by simp [validPositions, hLi]⟩
  exact (Finset.sum_pos (fun k _ => Real.exp_pos _) hne).ne'

/-! ### Claims -/

/-- C1: for every processed query `[batch, 1, num_units]`, processed location
features `[batch, source_length, num_units]`, and processed keys
`[batch, source_length, num_units]`, the score function returns
`energy[b][t] = ∑_{k < num_units} v_a[k] * tanh(keys[b][t][k] + query[b][0][k]
+ location_features[b][t][k])`, the query broadcast over the source_length
axis, yielding a `[batch, source_length]` energy tensor. -/
theorem c1_energy_formula {b t u : ℕ} (v_a : Fin u → ℝ)
    (W_query : Fin b → Fin 1 → Fin u → ℝ) (W_fil W_keys : Fin b → Fin t → Fin u → ℝ)
    (i : Fin b) (j : Fin t) :
    location_sensitive_score v_a W_query W_fil W_keys i j
      = ∑ k, v_a k * Real.tanh (W_keys i j k + W_query i 0 k + W_fil i j k) := rfl

/-- C2: whenever `memory_sequence_length` is supplied, every position at or
beyond a row's declared valid length receives alignment exactly 0 from
`__call__`, under both the softmax and the smoothing normalization. -/
theorem c2_masked_positions_zero {b t qd u F K : ℕ}
    (m : LocationSensitiveAttention b t qd u F K)
    (L : Fin b → ℕ) (hL : m.memory_sequence_length = some L)
    (query : Fin b → Fin qd → ℝ) (state : Fin b → Fin t → ℝ)
    (i : Fin b) (j : Fin t) (h : L i ≤ (j : ℕ)) :
    (m.call query state).1 i j = 0 := by
  rw [call_fst]
  unfold LocationSensitiveAttention.probabilityFn
  rw [hL]
  cases hs : m.smoothing
  · simp [masked_softmax, Nat.not_lt.mpr h]
  · simp [masked_smoothing, Nat.not_lt.mpr h]

/-- Witness for C2 at a concrete mechanism: batch 1, source length 2,
valid length 1, so position 1 is masked and its alignment is 0. -/
noncomputable def maskedMech : LocationSensitiveAttention 1 2 1 1 1 1 :=
  ⟨fun _ _ _ => 0, fun _ _ => 0, fun _ _ => 0, fun _ _ => 0, fun _ => 0, false,
    some (fun _ => 1)⟩

noncomputable def queryTwo : Fin 1 → Fin 1 → ℝ := fun _ _ => 0

noncomputable def stateTwo : Fin 1 → Fin 2 → ℝ := fun _ _ => 0

/-- Witness for C2: the concrete masked mechanism assigns alignment 0 to the
position at index 1 ≥ L = 1. -/
theorem c2_witness :
    maskedMech.memory_sequence_length = some (fun _ => 1) ∧
      (1 : ℕ) ≤ ((1 : Fin 2) : ℕ) ∧
      (maskedMech.call queryTwo stateTwo).1 0 1 = 0 :=
  ⟨rfl, by decide,
    c2_masked_positions_zero maskedMech (fun _ => 1) rfl queryTwo stateTwo 0 1 (by decide)⟩

/-- C3: the smoothing normalization returns, at each position `(i, j)`, the
logistic transform `1 / (1 + exp (-e[i][j]))` of the energy divided by the
row sum (over the source_length axis) of the logistic transform. -/
theorem c3_smoothing_formula {b t : ℕ} (e : Fin b → Fin t → ℝ) (i : Fin b) (j : Fin t) :
    smoothing_normalization e i j
      = (1 / (1 + Real.exp (-(e i j)))) / ∑ k, 1 / (1 + Real.exp (-(e i k))) := rfl

/-- C4: with `smoothing=False` (the default), every entry of the returned
alignment is non-negative and each batch row sums to 1, for valid inputs
(a non-empty source axis; every declared valid length positive when
`memory_sequence_length` is supplied). -/
theorem c4_exclusive_rows_sum_one {b t qd u F K : ℕ}
    (m : LocationSensitiveAttention b t qd u F K)
    (hs : m.smoothing = false) (ht : 0 < t)
    (hvalid : ∀ L, m.memory_sequence_length = some L → ∀ i, 0 < L i)
    (query : Fin b → Fin qd → ℝ) (state : Fin b → Fin t → ℝ) :
    (∀ i j, 0 ≤ (m.call query state).1 i j) ∧
      (∀ i, ∑ j, (m.call query state).1 i j = 1) := by
  have key : ∀ i : Fin b,
      (∀ j, 0 ≤ (m.call query state).1 i j) ∧
        (∑ j, (m.call query state).1 i j = 1) := by
    intro i
    rw [call_fst]
    unfold LocationSensitiveAttention.probabilityFn
    cases hmem : m.memory_sequence_length with
    | none =>
      rw [hs]
      simp only [Bool.false_eq_true, if_false]
      exact ⟨fun j => softmax_nonneg _ i j, softmax_row_sum _ ht i⟩
    | some L =>
      rw [hs]
      simp only [Bool.false_eq_true, if_false]
      exact ⟨fun j => masked_softmax_nonneg _ _ i j,
        masked_softmax_row_sum _ _ ht i (hvalid L hmem i)⟩
  exact ⟨fun i => (key i).1, fun i => (key i).2⟩

/-- Concrete default-normalization mechanism for the C4 witness: batch 1,
source length 2, no masking, `smoothing=False`. -/
noncomputable def softMech : LocationSensitiveAttention 1 2 1 1 1 1 :=
  ⟨fun _ _ _ => 0, fun _ _ => 0, fun _ _ => 0, fun _ _ => 0, fun _ => 0, false, none⟩

/-- Witness for C4: on the concrete softmax mechanism the alignment entries
are non-negative and each row sums to 1. -/
theorem c4_witness :
    (∀ i j, 0 ≤ (softMech.call queryTwo stateTwo).1 i j) ∧
      (∀ i, ∑ j, (softMech.call queryTwo stateTwo).1 i j = 1) :=
  c4_exclusive_rows_sum_one softMech rfl (by decide)
    (fun _ h => Option.noConfusion h) queryTwo stateTwo

/-- Concrete smoothing mechanism with a single source position for the C5
counterexample. -/
noncomputable def smoothOne : LocationSensitiveAttention 1 1 1 1 1 1 :=
  ⟨fun _ _ _ => 0, fun _ _ => 0, fun _ _ => 0, fun _ _ => 0, fun _ => 0, true, none⟩

noncomputable def queryOne : Fin 1 → Fin 1 → ℝ := fun _ _ => 0

noncomputable def stateOne : Fin 1 → Fin 1 → ℝ := fun _ _ => 0

/-- C5 counterexample: with `smoothing=True` and source length 1, the single
alignment entry equals 1, so it does not lie strictly in the open interval
(0, 1) as the claim states. -/
theorem c5_counterexample :
    smoothOne.smoothing = true ∧
      (smoothOne.call queryOne stateOne).1 0 0 = 1 ∧
      ¬ (0 < (smoothOne.call queryOne stateOne).1 0 0 ∧
          (smoothOne.call queryOne stateOne).1 0 0 < 1) := by
  have h1 : (smoothOne.call queryOne stateOne).1 0 0 = 1 := by
    rw [call_fst]
    show smoothing_normalization (smoothOne.energy smoothOne.v_a queryOne stateOne) 0 0 = 1
    unfold smoothing_normalization
    rw [Fin.sum_univ_one]
    exact div_self (sigmoid_pos _).ne'
  refine ⟨rfl, h1, ?_⟩
  rw [h1]
  simp

/-- C5 (amended): with `smoothing=True` and no `memory_sequence_length`,
every alignment entry lies in the half-open interval (0, 1], and it is
strictly below 1 whenever the source length is at least 2 (with source
length 1 the single entry equals 1). -/
theorem c5_amended_entries {b t qd u F K : ℕ}
    (m : LocationSensitiveAttention b t qd u F K)
    (hs : m.smoothing = true) (hnone : m.memory_sequence_length = none)
    (query : Fin b → Fin qd → ℝ) (state : Fin b → Fin t → ℝ)
    (i : Fin b) (j : Fin t) :
    0 < (m.call query state).1 i j ∧ (m.call query state).1 i j ≤ 1 ∧
      (2 ≤ t → (m.call query state).1 i j < 1) := by
  rw [call_fst]
  unfold LocationSensitiveAttention.probabilityFn
  rw [hnone, hs]
  simp only [if_true]
  set e := m.energy m.v_a query state with he
  have hS : 0 < ∑ k, sigmoid (e i k) :=
    Finset.sum_pos (fun k _ => sigmoid_pos _) ⟨j, Finset.mem_univ j⟩
  unfold smoothing_normalization
  refine ⟨div_pos (sigmoid_pos _) hS, ?_, ?_⟩
  · rw [div_le_one hS]
    exact Finset.single_le_sum (fun k _ => (sigmoid_pos (e i k)).le) (Finset.mem_univ j)
  · intro ht2
    rw [div_lt_one hS]
    obtain ⟨j2, _, hj2⟩ :=
      Finset.exists_ne_of_one_lt_card (s := (Finset.univ : Finset (Fin t)))
        (by simpa using ht2) j
    exact Finset.single_lt_sum hj2 (Finset.mem_univ j) (Finset.mem_univ j2)
      (sigmoid_pos _) (fun k _ _ => (sigmoid_pos (e i k)).le)

/-- Concrete smoothing mechanism with two source positions for the amended
C5 witness. -/
noncomputable def smoothTwo : LocationSensitiveAttention 1 2 1 1 1 1 :=
  ⟨fun _ _ _ => 0, fun _ _ => 0, fun _ _ => 0, fun _ _ => 0, fun _ => 0, true, none⟩

/-- Witness for the amended C5: on the concrete two-position smoothing
mechanism the entry at (0, 0) is positive, at most 1, and strictly below 1. -/
theorem c5_witness :
    0 < (smoothTwo.call queryTwo stateTwo).1 0 0 ∧
      (smoothTwo.call queryTwo stateTwo).1 0 0 ≤ 1 ∧
      (2 ≤ 2 → (smoothTwo.call queryTwo stateTwo).1 0 0 < 1) :=
  c5_amended_entries smoothTwo rfl rfl queryTwo stateTwo 0 0

/-- C6: `__call__` returns a pair whose second component (the next recurrent
state) is exactly the alignments just computed, and those alignments are the
probability function applied to the fresh energy — the previous alignment is
replaced entirely, never accumulated into the new state. -/
theorem c6_next_state_replaced {b t qd u F K : ℕ}
    (m : LocationSensitiveAttention b t qd u F K)
    (query : Fin b → Fin qd → ℝ) (state : Fin b → Fin t → ℝ) :
    (m.call query state).2 = (m.call query state).1 ∧
      (m.call query state).1 = m.probabilityFn (m.energy m.v_a query state) state :=
  ⟨rfl, rfl⟩

/-- C7: the per-step computation is a pure deterministic function of the
parameters, the query, and the previous alignment.  With the variable store
threaded explicitly, invoking `__call__` a second time on the same inputs —
starting from the store left by the first invocation — produces exactly the
same output, whether or not the scoring vector existed before the first
call. -/
theorem c7_deterministic {b t qd u F K : ℕ}
    (m : LocationSensitiveAttention b t qd u F K) (store : Option (Fin u → ℝ))
    (query : Fin b → Fin qd → ℝ) (state : Fin b → Fin t → ℝ) :
    (m.callWithStore ((m.callWithStore store query state).2) query state).1
      = (m.callWithStore store query state).1 := by
  cases store <;> rfl

/-- C8: the scoring vector is created exactly once, lazily: a call on an
empty store creates it (storing its initialized value), any later call on a
store that already holds a vector `v` leaves the store unchanged, and the
alignments of that later call are computed by reading that same shared `v`. -/
theorem c8_scoring_vector_shared {b t qd u F K : ℕ}
    (m : LocationSensitiveAttention b t qd u F K)
    (query : Fin b → Fin qd → ℝ) (state : Fin b → Fin t → ℝ) :
    (m.callWithStore none query state).2 = some m.v_a ∧
      (∀ (v : Fin u → ℝ) (q2 : Fin b → Fin qd → ℝ) (s2 : Fin b → Fin t → ℝ),
        (m.callWithStore (some v) q2 s2).2 = some v) ∧
      (∀ (v : Fin u → ℝ) (q2 : Fin b → Fin qd → ℝ) (s2 : Fin b → Fin t → ℝ),
        (m.callWithStore (some v) q2 s2).1.1
          = m.probabilityFn (m.energy v q2 s2) s2) :=
  ⟨rfl, fun _ _ _ => rfl, fun _ _ _ => rfl⟩

/-- C9: for every energy row whose sigmoid sum is nonzero, the smoothing
normalization output row sums exactly to 1. -/
theorem c9_smoothing_rows_sum_one {b t : ℕ} (e : Fin b → Fin t → ℝ) (i : Fin b)
    (hS : (∑ k, sigmoid (e i k)) ≠ 0) :
    ∑ j, smoothing_normalization e i j = 1 := by
  unfold smoothing_normalization
  rw [← Finset.sum_div, div_self hS]

/-- Concrete all-zero energy matrix for the C9 witness. -/
noncomputable def energyZero : Fin 1 → Fin 1 → ℝ := fun _ _ => 0

/-- Witness for C9: the all-zero energy row has nonzero sigmoid sum and its
smoothing-normalized row sums to 1. -/
theorem c9_witness :
    ((∑ k, sigmoid (energyZero 0 k)) ≠ 0) ∧
      (∑ j, smoothing_normalization energyZero 0 j = 1) := by
  have h : (∑ k, sigmoid (energyZero 0 k)) ≠ 0 := by
    rw [Fin.sum_univ_one]
    exact (sigmoid_pos _).ne'
  exact ⟨h, c9_smoothing_rows_sum_one energyZero 0 h⟩

/-- C10: the score function creates `v_a` with dtype float32 regardless of
the dtype it reads from the query; on inputs of any common dtype `d` other
than float32 the computation fails with a dtype mismatch (at the
multiplication by `v_a`), and on float32 inputs it succeeds and computes
exactly the untyped score. -/
theorem c10_float32_only {b t u : ℕ} (v : Fin u → ℝ) (d : DType)
    (W_query : Tensor3D b 1 u) (W_fil W_keys : Tensor3D b t u)
    (hq : W_query.dtype = d) (hf : W_fil.dtype = d) (hk : W_keys.dtype = d) :
    (d ≠ DType.float32 →
        location_sensitive_score_typed v W_query W_fil W_keys
          = Except.error "dtype mismatch") ∧
      (d = DType.float32 →
        location_sensitive_score_typed v W_query W_fil W_keys
          = Except.ok (location_sensitive_score v W_query.data W_fil.data W_keys.data)) := by
  constructor
  · intro hd
    simp [location_sensitive_score_typed, taddBroadcast, taddTyped, vecMulTyped,
      Except.instMonad, Bind.bind, Except.bind, Functor.map, Except.map,
      hq, hf, hk, Ne.symm hd]
  · intro hd
    subst hd
    simp [location_sensitive_score_typed, taddBroadcast, taddTyped, vecMulTyped,
      Except.instMonad, Bind.bind, Except.bind, Functor.map, Except.map,
      Except.pure, location_sensitive_score, hq, hf, hk]

/-- Concrete float16 tensors for the C10 witness. -/
noncomputable def queryF16 : Tensor3D 1 1 1 := ⟨fun _ _ _ => 0, DType.float16⟩

noncomputable def featF16 : Tensor3D 1 1 1 := ⟨fun _ _ _ => 0, DType.float16⟩

/-- Witness for C10: on float16 inputs the typed score computation fails with
a dtype mismatch. -/
theorem c10_witness :
    DType.float16 ≠ DType.float32 ∧
      location_sensitive_score_typed (fun _ => (0 : ℝ)) queryF16 featF16 featF16
        = Except.error "dtype mismatch" :=
  ⟨by decide,
    (c10_float32_only (fun _ => 0) DType.float16 queryF16 featF16 featF16
      rfl rfl rfl).1 (by decide)⟩

end Tacotron2
